import Mathlib

/-!
Shallow embedding of the recipe service in `hw.py`: the in-memory record
store, the query engine (`search_recipes`, `fetch_recipe`) and the mutation
engine (`create_recipe`), together with theorems settling the specification
claims about them.

Store records are Python dicts; we model them as a structure whose `url`
field is an `Option String` (the seed records carry a url key, records
appended by `create_recipe` do not, because `recipe_entry.dict()` only has
the three fields of the locally defined pydantic `Recipe` model).
-/

/-- A record held in the `RECIPES` store: a dict with keys `id`, `label`,
`source` and, for the seed records, `url`. -/
structure StoreRec where
  id : Int
  label : String
  source : String
  url : Option String
deriving Repr, DecidableEq

/-- The locally defined pydantic `Recipe` model (hw.py lines 11-14).
It declares only `id`, `label` and `source`; it shadows the `Recipe`
imported from `app.schemas`, and pydantic's default config silently ignores
unknown keyword arguments, so a `url=` argument passed to its constructor
is dropped. -/
structure RecipeModel where
  id : Int
  label : String
  source : String
deriving Repr, DecidableEq

/-- Modelled from the spec: the creation input `RecipeCreate` comes from
`app.schemas`, which is not part of the sources here; per the spec the
creation body carries `label`, `source` and `url`. -/
structure RecipeCreate where
  label : String
  source : String
  url : String
deriving Repr, DecidableEq

/-- The error raised by `HTTPException(status_code=..., detail=...)`. -/
structure HTTPErr where
  status_code : Int
  detail : String
deriving Repr, DecidableEq

/-- Outcome of the `fetch_recipe` handler: a record, or a raised
`HTTPException`. -/
inductive FetchResult where
  | ok (r : StoreRec)
  | error (e : HTTPErr)
deriving Repr, DecidableEq

/-- The seeded store `RECIPES` (hw.py lines 19-38). -/
def RECIPES : List StoreRec :=
  [ ⟨1, "Chicken Vesuvio", "Serious Eats",
      some "http://www.seriouseats.com/recipes/2011/12/chicken-vesuvio-recipe.html"⟩,
    ⟨2, "Chicken Paprikash", "No Recipes",
      some "http://norecipes.com/recipe/chicken-paprikash/"⟩,
    ⟨3, "Cauliflower and Tofu Curry Recipe", "Serious Eats",
      some "http://www.seriouseats.com/recipes/2011/02/cauliflower-and-tofu-curry-recipe.html"⟩ ]

/-- Does the list `s` start with the list `p`? (character-level helper for
Python's substring test). -/
def startsWithSeq : List Char → List Char → Bool
  | _, [] => true
  | [], _ :: _ => false
  | a :: s, b :: p => a == b && startsWithSeq s p

/-- Does the list `p` occur as a contiguous subsequence of `s`?
This is Python's `p in s` on strings, at the level of character lists. -/
def containsSeq : List Char → List Char → Bool
  | [], p => p.isEmpty
  | a :: s, p => startsWithSeq (a :: s) p || containsSeq s p

/-- Python's `pat in hay` substring containment on strings. -/
def strContains (hay pat : String) : Bool :=
  containsSeq hay.data pat.data

/-- Python's `s.lower()`, as the string's list of characters mapped through
character lowercasing (the labels and keywords involved are ASCII). -/
def lowerStr (s : String) : List Char :=
  s.data.map Char.toLower

/-- Python's slice `l[:n]` for an integer bound `n`: a nonnegative bound
takes the first `n` elements (clamped at the length); a negative bound
drops the last `-n` elements (empty when `-n` reaches the length). -/
def pySliceTo (l : List α) (n : Int) : List α :=
  if n < 0 then l.take (l.length - (-n).toNat) else l.take n.toNat

/-- `search_recipes` (hw.py lines 48-60): with no (or an empty) keyword,
return `RECIPES[:max_results]`; otherwise filter by case-insensitive
substring containment in the label and slice the matches. -/
def search_recipes (keyword : Option String) (max_results : Int)
    (store : List StoreRec) : List StoreRec :=
  match keyword with
  | none => pySliceTo store max_results
  | some kw =>
    if kw = "" then pySliceTo store max_results
    else
      pySliceTo
        (store.filter (fun recipe => containsSeq (lowerStr recipe.label) (lowerStr kw)))
        max_results

/-- The `search_recipes` handler as a step on the store: it reads the store
and leaves it unchanged (the body of the handler only reads `RECIPES`). -/
def search_step (keyword : Option String) (max_results : Int)
    (store : List StoreRec) : List StoreRec × List StoreRec :=
  (search_recipes keyword max_results store, store)

/-- `fetch_recipe` (hw.py lines 81-90): linear scan filtering on `id`;
the head of the matches on success, a 404 `HTTPException` naming the
requested id when the match list is empty. -/
def fetch_recipe (recipe_id : Int) (store : List StoreRec) : FetchResult :=
  match store.filter (fun recipe => recipe.id == recipe_id) with
  | [] =>
    FetchResult.error
      ⟨404, "Recipe with id " ++ toString recipe_id ++ " not found "⟩
  | r :: _ => FetchResult.ok r

/-- `create_recipe` (hw.py lines 92-105): assign id `len(RECIPES) + 1`,
build the local `Recipe` model (which drops the `url=` keyword argument,
see `RecipeModel`), append its dict to the store, and return the model.
The result is the returned record paired with the updated store. -/
def create_recipe (recipe_in : RecipeCreate) (store : List StoreRec) :
    RecipeModel × List StoreRec :=
  let new_entry_id : Int := (store.length : Int) + 1
  let recipe_entry : RecipeModel :=
    ⟨new_entry_id, recipe_in.label, recipe_in.source⟩
  (recipe_entry,
    store ++ [⟨recipe_entry.id, recipe_entry.label, recipe_entry.source, none⟩])

/-- Iterate `create_recipe` over a list of creation inputs, threading the
store. -/
def applyCreates (inps : List RecipeCreate) (store : List StoreRec) :
    List StoreRec :=
  inps.foldl (fun s inp => (create_recipe inp s).2) store

/-- The reading of claim C1 for the keyword branch of search: the first
`max_results` label matches in store order, where a negative count means
no records ("the first max_results matches"). -/
def searchClaimedC1 (kw : String) (max_results : Int)
    (store : List StoreRec) : List StoreRec :=
  (store.filter (fun recipe => containsSeq (lowerStr recipe.label) (lowerStr kw))).take
    max_results.toNat

lemma pySliceTo_of_nonneg (l : List α) (n : Int) (hn : 0 ≤ n) :
    pySliceTo l n = l.take n.toNat := by
  unfold pySliceTo
  rw [if_neg (by omega)]

lemma startsWithSeq_append (p y : List Char) :
    startsWithSeq (p ++ y) p = true := by
  induction p with
  | nil => simp [startsWithSeq]
  | cons b p ih => simp [startsWithSeq, ih]

lemma containsSeq_of_startsWith (s p : List Char)
    (h : startsWithSeq s p = true) : containsSeq s p = true := by
  cases s with
  | nil =>
    cases p with
    | nil => rfl
    | cons b q => simp [startsWithSeq] at h
  | cons a t => simp [containsSeq, h]

lemma containsSeq_cons (a : Char) (s p : List Char)
    (h : containsSeq s p = true) : containsSeq (a :: s) p = true := by
  simp [containsSeq, h]

lemma containsSeq_append (x p y : List Char) :
    containsSeq (x ++ (p ++ y)) p = true := by
  induction x with
  | nil => exact containsSeq_of_startsWith _ _ (startsWithSeq_append p y)
  | cons a x ih => exact containsSeq_cons a _ p ih

lemma strContains_middle (a b c : String) :
    strContains (a ++ b ++ c) b = true := by
  show containsSeq (a.data ++ b.data ++ c.data) b.data = true
  rw [List.append_assoc]
  exact containsSeq_append a.data b.data c.data

lemma head?_filter_eq_find? (p : α → Bool) (l : List α) :
    (l.filter p).head? = l.find? p := by
  induction l with
  | nil => rfl
  | cons a t ih =>
    by_cases h : p a
    · simp [List.filter_cons, List.find?_cons, h]
    · simp [List.filter_cons, List.find?_cons, h, ih]

lemma fetch_recipe_ok_iff (rid : Int) (store : List StoreRec) (r : StoreRec) :
    fetch_recipe rid store = FetchResult.ok r ↔
      store.find? (fun x => x.id == rid) = some r := by
  unfold fetch_recipe
  rw [← head?_filter_eq_find?]
  cases h : store.filter (fun x => x.id == rid) with
  | nil => simp
  | cons a t => simp

lemma fetch_recipe_error_iff (rid : Int) (store : List StoreRec) :
    fetch_recipe rid store =
        FetchResult.error
          ⟨404, "Recipe with id " ++ toString rid ++ " not found "⟩ ↔
      ∀ r ∈ store, r.id ≠ rid := by
  unfold fetch_recipe
  cases h : store.filter (fun x => x.id == rid) with
  | nil =>
    have hnone : ∀ r ∈ store, r.id ≠ rid := by
      intro r hr heq
      have hmem : r ∈ store.filter (fun x => x.id == rid) :=
        List.mem_filter.mpr ⟨hr, by simp [heq]⟩
      rw [h] at hmem
      cases hmem
    exact iff_of_true rfl hnone
  | cons a t =>
    have ha := List.mem_filter.mp (h ▸ List.mem_cons_self a t)
    apply iff_of_false
    · intro he
      cases he
    · intro hall
      exact hall a ha.1 (by simpa using ha.2)

/-- Position-indexed shape of the store's ids: the record at index `i`
carries id `i + 1`.  Holds of the seed store and is preserved by
`create_recipe` (which is what makes the count-based id scheme injective
here). -/
def idsSeq (s : List StoreRec) : Prop :=
  s.map (fun r => r.id) = (List.range s.length).map (fun n : Nat => (n : Int) + 1)

lemma create_recipe_snd (inp : RecipeCreate) (store : List StoreRec) :
    (create_recipe inp store).2 =
      store ++ [⟨(store.length : Int) + 1, inp.label, inp.source, none⟩] := rfl

lemma idsSeq_create (inp : RecipeCreate) (store : List StoreRec)
    (h : idsSeq store) : idsSeq (create_recipe inp store).2 := by
  unfold idsSeq at h ⊢
  rw [create_recipe_snd]
  simp [List.range_succ, h]

lemma idsSeq_applyCreates (inps : List RecipeCreate) :
    ∀ store : List StoreRec, idsSeq store → idsSeq (applyCreates inps store) := by
  induction inps with
  | nil => intro store h; exact h
  | cons a t ih => intro store h; exact ih _ (idsSeq_create a store h)

lemma pairwise_of_idsSeq (s : List StoreRec) (h : idsSeq s) :
    s.Pairwise (fun a b => a.id < b.id) := by
  have h2 : ((List.range s.length).map (fun n : Nat => (n : Int) + 1)).Pairwise
      (fun a b => a < b) := by
    refine List.Pairwise.map _ ?_ (List.pairwise_lt_range s.length)
    intro a b hab
    show (a : Int) + 1 < (b : Int) + 1
    omega
  have h1 : (s.map (fun r => r.id)).Pairwise (fun a b => a < b) := h.symm ▸ h2
  exact List.pairwise_map.mp h1

example : containsSeq (lowerStr "Chicken Paprikash") (lowerStr "chicken") = true := by decide
example : containsSeq (lowerStr "Cauliflower") (lowerStr "chicken") = false := by decide
example : pySliceTo [1, 2, 3] (-1) = [1, 2] := by decide
example : pySliceTo [1, 2, 3] 10 = [1, 2, 3] := by decide
example :
    search_recipes (some "Chicken") 10 RECIPES =
      [RECIPES.get ⟨0, by decide⟩, RECIPES.get ⟨1, by decide⟩] := by decide
example : fetch_recipe 999 RECIPES =
    FetchResult.error ⟨404, "Recipe with id 999 not found "⟩ := by decide

/-- C1 counterexample: with keyword "Chicken" and `max_results = -1` the
handler returns one record (Python's slice drops only the last match),
while "the first max_results matches" for a negative count is no records
at all, so the claim's description of the result fails. -/
theorem search_keyword_negative_cx :
    search_recipes (some "Chicken") (-1) RECIPES ≠
      searchClaimedC1 "Chicken" (-1) RECIPES := by decide

/-- C1 (amended): for every non-empty keyword and nonnegative max_results,
the result is exactly the store-order label matches truncated to the first
max_results, and in particular every returned record's label
case-insensitively contains the keyword. -/
theorem search_keyword_matches (kw : String) (n : Int) (store : List StoreRec)
    (hkw : kw ≠ "") (hn : 0 ≤ n) :
    search_recipes (some kw) n store = searchClaimedC1 kw n store
    ∧ ∀ r ∈ search_recipes (some kw) n store,
        containsSeq (lowerStr r.label) (lowerStr kw) = true := by
  have he : search_recipes (some kw) n store =
      pySliceTo (store.filter fun recipe =>
        containsSeq (lowerStr recipe.label) (lowerStr kw)) n := by
    unfold search_recipes
    exact if_neg hkw
  constructor
  · rw [he, pySliceTo_of_nonneg _ _ hn]
    rfl
  · intro r hr
    rw [he, pySliceTo_of_nonneg _ _ hn] at hr
    have hmem := List.take_subset _ _ hr
    exact (List.mem_filter.mp hmem).2

/-- Witness for C1's amended theorem at keyword "Chicken", max_results 10,
on the seeded store. -/
theorem search_keyword_matches_witness :
    search_recipes (some "Chicken") 10 RECIPES =
        searchClaimedC1 "Chicken" 10 RECIPES
    ∧ ∀ r ∈ search_recipes (some "Chicken") 10 RECIPES,
        containsSeq (lowerStr r.label) (lowerStr "Chicken") = true :=
  search_keyword_matches "Chicken" 10 RECIPES (by decide) (by decide)

/-- C2: fetch returns the first record in store order whose id matches
(characterised via `List.find?`); it raises exactly the 404 error naming
the requested id when and only when no record matches; on the seeded store
fetching id 2 gives the "Chicken Paprikash" record and fetching id 999
gives the 404 error. -/
theorem fetch_by_id_behavior :
    (∀ (rid : Int) (store : List StoreRec) (r : StoreRec),
        fetch_recipe rid store = FetchResult.ok r ↔
          store.find? (fun x => x.id == rid) = some r)
    ∧ (∀ (rid : Int) (store : List StoreRec),
        fetch_recipe rid store =
            FetchResult.error
              ⟨404, "Recipe with id " ++ toString rid ++ " not found "⟩ ↔
          ∀ r ∈ store, r.id ≠ rid)
    ∧ (∀ (rid : Int) (store : List StoreRec) (e : HTTPErr),
        fetch_recipe rid store = FetchResult.error e →
          e.status_code = 404 ∧ strContains e.detail (toString rid) = true)
    ∧ fetch_recipe 2 RECIPES =
        FetchResult.ok ⟨2, "Chicken Paprikash", "No Recipes",
          some "http://norecipes.com/recipe/chicken-paprikash/"⟩
    ∧ fetch_recipe 999 RECIPES =
        FetchResult.error ⟨404, "Recipe with id 999 not found "⟩ := by
  refine ⟨fetch_recipe_ok_iff, fetch_recipe_error_iff, ?_, by decide, by decide⟩
  intro rid store e he
  unfold fetch_recipe at he
  cases h : store.filter (fun x => x.id == rid) with
  | nil =>
    rw [h] at he
    cases he
    exact ⟨rfl, strContains_middle _ _ _⟩
  | cons a t =>
    rw [h] at he
    cases he

/-- C3: the id assigned by create equals the store size before the call
plus one, and the returned record carries exactly that id together with
the input's label and source. -/
theorem create_assigns_size_plus_one (inp : RecipeCreate)
    (store : List StoreRec) :
    (create_recipe inp store).1.id = (store.length : Int) + 1
    ∧ (create_recipe inp store).1 =
        ⟨(store.length : Int) + 1, inp.label, inp.source⟩ :=
  ⟨rfl, rfl⟩

/-- C4: starting from the seeded store, after any sequence of create calls
the records' ids are strictly increasing in store (creation) order, hence
pairwise distinct. -/
theorem created_ids_distinct_increasing (inps : List RecipeCreate) :
    (applyCreates inps RECIPES).Pairwise (fun a b => a.id < b.id)
    ∧ (applyCreates inps RECIPES).Pairwise (fun a b => a.id ≠ b.id) := by
  have hseed : idsSeq RECIPES := by
    unfold idsSeq
    decide
  have h := pairwise_of_idsSeq _ (idsSeq_applyCreates inps RECIPES hseed)
  exact ⟨h, h.imp (fun hab => ne_of_lt hab)⟩

/-- C5 counterexample: with no keyword and `max_results = -1`, the handler
returns the Python slice `RECIPES[:-1]`, which has 2 records, not at most
-1 of them. -/
theorem search_length_negative_cx :
    ¬ (((search_recipes none (-1) RECIPES).length : Int) ≤ -1) := by decide

/-- C5 (amended): for every keyword (present, absent or empty) and every
nonnegative max_results, the number of records returned is at most
max_results. -/
theorem search_length_le (keyword : Option String) (n : Int)
    (store : List StoreRec) (hn : 0 ≤ n) :
    ((search_recipes keyword n store).length : Int) ≤ n := by
  have key : ∀ l : List StoreRec, ((pySliceTo l n).length : Int) ≤ n := by
    intro l
    rw [pySliceTo_of_nonneg _ _ hn]
    simp [List.length_take]
    omega
  cases keyword with
  | none => exact key store
  | some kw =>
    show ((if kw = "" then pySliceTo store n else
        pySliceTo (store.filter fun recipe =>
          containsSeq (lowerStr recipe.label) (lowerStr kw)) n).length : Int) ≤ n
    by_cases h : kw = ""
    · rw [if_pos h]
      exact key store
    · rw [if_neg h]
      exact key _

/-- Witness for C5's amended theorem: keyword "Chicken", max_results 10,
seeded store. -/
theorem search_length_le_witness :
    ((search_recipes (some "Chicken") 10 RECIPES).length : Int) ≤ 10 :=
  search_length_le (some "Chicken") 10 RECIPES (by decide)

/-- C6 counterexample: with no keyword and `max_results = -1` the handler
returns `RECIPES[:-1]` (two records), not "the first max_results records"
(none, for a negative count). -/
theorem search_no_keyword_negative_cx :
    search_recipes none (-1) RECIPES ≠ RECIPES.take ((-1 : Int)).toNat := by
  decide

/-- C6 (amended): with an absent or empty keyword and nonnegative
max_results, the search result is the first max_results store records in
stored order with no filtering; in particular searching with no keyword
and max_results 10 on the seeded store returns exactly the 3 seed records
in order. -/
theorem search_no_keyword (n : Int) (store : List StoreRec) (hn : 0 ≤ n) :
    search_recipes none n store = store.take n.toNat
    ∧ search_recipes (some "") n store = store.take n.toNat
    ∧ search_recipes none 10 RECIPES = RECIPES := by
  refine ⟨?_, ?_, by decide⟩
  · exact pySliceTo_of_nonneg _ _ hn
  · show (if ("" : String) = "" then pySliceTo store n else
        pySliceTo (store.filter fun recipe =>
          containsSeq (lowerStr recipe.label) (lowerStr "")) n) =
      store.take n.toNat
    rw [if_pos rfl]
    exact pySliceTo_of_nonneg _ _ hn

/-- Witness for C6's amended theorem at max_results 10 on the seeded
store. -/
theorem search_no_keyword_witness :
    search_recipes none 10 RECIPES = RECIPES.take ((10 : Int)).toNat
    ∧ search_recipes (some "") 10 RECIPES = RECIPES.take ((10 : Int)).toNat
    ∧ search_recipes none 10 RECIPES = RECIPES :=
  search_no_keyword 10 RECIPES (by decide)

/-- C7: on the seeded store, after creating the Lasagna recipe, fetching
the returned id yields the stored record with exactly the returned
record's fields (and no url key), and a search for "Lasagna" with
max_results 10 includes that record. -/
theorem create_then_read_roundtrip :
    fetch_recipe (create_recipe ⟨"Lasagna", "Grandma", ""⟩ RECIPES).1.id
        (create_recipe ⟨"Lasagna", "Grandma", ""⟩ RECIPES).2
      = FetchResult.ok
          ⟨(create_recipe ⟨"Lasagna", "Grandma", ""⟩ RECIPES).1.id,
           (create_recipe ⟨"Lasagna", "Grandma", ""⟩ RECIPES).1.label,
           (create_recipe ⟨"Lasagna", "Grandma", ""⟩ RECIPES).1.source, none⟩
    ∧ (⟨(create_recipe ⟨"Lasagna", "Grandma", ""⟩ RECIPES).1.id,
        (create_recipe ⟨"Lasagna", "Grandma", ""⟩ RECIPES).1.label,
        (create_recipe ⟨"Lasagna", "Grandma", ""⟩ RECIPES).1.source,
        none⟩ : StoreRec)
        ∈ search_recipes (some "Lasagna") 10
            (create_recipe ⟨"Lasagna", "Grandma", ""⟩ RECIPES).2 := by
  decide

/-- C8: create appends exactly one record at the end of the store and
changes nothing else: the new store is the old one plus one appended
record, its length grows by one, and its prefix of the old length is the
old store unchanged. -/
theorem create_frame (inp : RecipeCreate) (store : List StoreRec) :
    (create_recipe inp store).2 =
      store ++ [⟨(store.length : Int) + 1, inp.label, inp.source, none⟩]
    ∧ (create_recipe inp store).2.length = store.length + 1
    ∧ (create_recipe inp store).2.take store.length = store := by
  refine ⟨rfl, by simp [create_recipe_snd], ?_⟩
  rw [create_recipe_snd]
  simp

/-- C9: the search handler is a pure read: it leaves the store unchanged,
and two searches with the same arguments and no intervening create return
the same ordered results. -/
theorem search_pure_idempotent (keyword : Option String) (max_results : Int)
    (store : List StoreRec) :
    (search_step keyword max_results store).2 = store
    ∧ (search_step keyword max_results
          ((search_step keyword max_results store).2)).1 =
        (search_step keyword max_results store).1 :=
  ⟨rfl, rfl⟩

/-- C10: the url supplied in the creation input is discarded: create
behaves identically for any two inputs differing only in url, the record
it returns is the three-field model carrying id, label and source, and
the record it stores carries no url key. -/
theorem create_discards_url (l s u v : String) (store : List StoreRec) :
    create_recipe ⟨l, s, u⟩ store = create_recipe ⟨l, s, v⟩ store
    ∧ (create_recipe ⟨l, s, u⟩ store).1 =
        ⟨(store.length : Int) + 1, l, s⟩
    ∧ (create_recipe ⟨l, s, u⟩ store).2 =
        store ++ [⟨(store.length : Int) + 1, l, s, none⟩] :=
  ⟨rfl, rfl, rfl⟩
